import Mathlib

/-!
Verification development for the gcp-emulator-auth permission-check client.

The Go sources are shallowly embedded here:
* Go strings are Lean `String` (lists of unicode scalar values); the byte-level
  ASCII fast paths of the Go standard library agree with the rune-level
  semantics modelled here on the inputs this package handles.
* Machine integers that cannot overflow in this code (latency milliseconds,
  line counters) are `Int`/`Nat`.
* A Go `error` as observed through `status.Code` is `Option GoError`: `none`
  is the nil error, and a non-nil error carries the gRPC status code that
  `status.Code` resolves for it (plain non-status errors resolve to
  `Code.unknown`) together with the `Error()` message string.
* The remote `TestIamPermissions` RPC is an oracle passed to
  `Client.CheckPermission`; it maps the request (principal in outbound
  metadata, resource, permission list) to either a granted-permission list or
  an error.
-/

namespace EmulatorAuth

/-- The gRPC status codes of google.golang.org/grpc/codes, as fixed by the
gRPC specification. `unknown` is also what `status.Code` returns for a
non-nil error that is not a status error. -/
inductive Code where
  | ok
  | canceled
  | unknown
  | invalidArgument
  | deadlineExceeded
  | notFound
  | alreadyExists
  | permissionDenied
  | resourceExhausted
  | failedPrecondition
  | aborted
  | outOfRange
  | unimplemented
  | internal
  | unavailable
  | dataLoss
  | unauthenticated
deriving DecidableEq, Repr

/-- A non-nil Go error as seen by this package: the status code that
`status.Code(err)` resolves (codes.Unknown when `err` is not a gRPC status
error) and the `Error()` message. A full Go error value is `Option GoError`,
with `none` standing for nil. -/
structure GoError where
  code : Code
  message : String
deriving DecidableEq, Repr

/-- Embeds IsConnectivityError of src/unnamed/part_003: true when the error
is non-nil and its status code is Unavailable, DeadlineExceeded or Canceled. -/
def IsConnectivityError : Option GoError → Bool
  | none => false
  | some e => e.code == Code.unavailable || e.code == Code.deadlineExceeded ||
      e.code == Code.canceled

/-- Embeds IsConfigError of src/unnamed/part_003: true when the error is
non-nil and its status code is InvalidArgument, Internal or Unimplemented. -/
def IsConfigError : Option GoError → Bool
  | none => false
  | some e => e.code == Code.invalidArgument || e.code == Code.internal ||
      e.code == Code.unimplemented

/-- Go type AuthMode is a defined string type; any string value inhabits it. -/
abbrev AuthMode := String

/-- Constant AuthModeOff of src/unnamed/part_001. -/
def AuthModeOff : AuthMode := "off"

/-- Constant AuthModePermissive of src/unnamed/part_001. -/
def AuthModePermissive : AuthMode := "permissive"

/-- Constant AuthModeStrict of src/unnamed/part_001. -/
def AuthModeStrict : AuthMode := "strict"

/-- The white-space predicate of Go (unicode.IsSpace): the unicode
White_Space code points. Used by strings.TrimSpace. -/
def isSpaceChar (c : Char) : Bool :=
  decide ((9 ≤ c.toNat ∧ c.toNat ≤ 13) ∨ c.toNat = 32 ∨ c.toNat = 133 ∨
    c.toNat = 160 ∨ c.toNat = 5760 ∨ (8192 ≤ c.toNat ∧ c.toNat ≤ 8202) ∨
    c.toNat = 8232 ∨ c.toNat = 8233 ∨ c.toNat = 8239 ∨ c.toNat = 8287 ∨
    c.toNat = 12288)

/-- Rune-wise lower-casing as performed by Go strings.ToLower, which applies
the Unicode simple lowercase mapping to every rune. The embedding carries
the ASCII range A..Z and the only two code points whose simple lowercase
mapping is an ASCII character: U+0130 LATIN CAPITAL LETTER I WITH DOT ABOVE
(304, mapped to i = 105) and U+212A KELVIN SIGN (8490, mapped to k = 107).
Every remaining simple case mapping sends a non-ASCII rune to a non-ASCII
rune and never meets the white-space table; those runes are modelled as
fixed points. Hence for every rune c and every ASCII character x,
lowerChar c = x exactly when the Go mapping sends c to x, so a normalized
string equals an ASCII spelling such as "permissive" or "strict" in this
model exactly when it does in Go, and ParseAuthMode below agrees with the
Go function on every input string. -/
def lowerChar (c : Char) : Char :=
  if 65 ≤ c.toNat ∧ c.toNat ≤ 90 then Char.ofNat (c.toNat + 32)
  else if c.toNat = 304 then Char.ofNat 105
  else if c.toNat = 8490 then Char.ofNat 107
  else c

/-- Removes trailing white space from a rune list (the right half of
strings.TrimSpace). -/
def trimRightL : List Char → List Char
  | [] => []
  | a :: t =>
    match trimRightL t with
    | [] => if isSpaceChar a then [] else [a]
    | b :: u => a :: b :: u

/-- Embeds strings.TrimSpace at the rune level: drop leading and trailing
white space. -/
def trimSpaceL (l : List Char) : List Char :=
  trimRightL (l.dropWhile isSpaceChar)

/-- strings.TrimSpace on Lean strings. -/
def trimSpaceS (s : String) : String :=
  String.mk (trimSpaceL s.toList)

/-- strings.ToLower at the rune level. -/
def toLowerL (l : List Char) : List Char :=
  l.map lowerChar

/-- The normal form used by ParseAuthMode: strings.ToLower applied to
strings.TrimSpace of the input. -/
def normalizeL (l : List Char) : List Char :=
  toLowerL (trimSpaceL l)

/-- Embeds ParseAuthMode of src/unnamed/part_001: switch on the lower-cased,
trimmed input; unknown values map to AuthModeOff. -/
def ParseAuthMode (s : String) : AuthMode :=
  if normalizeL s.toList = "permissive".toList then AuthModePermissive
  else if normalizeL s.toList = "strict".toList then AuthModeStrict
  else AuthModeOff

/-- Embeds the AuthMode IsEnabled method of src/unnamed/part_001:
true when the mode is not AuthModeOff. -/
def AuthMode.IsEnabled (m : AuthMode) : Bool :=
  m != AuthModeOff

/-- Constant SchemaV1_0 of src/pkg/trace/types.go. -/
def SchemaV1_0 : String := "1.0"

/-- Constant EventTypeAuthzCheck of src/pkg/trace/types.go. -/
def EventTypeAuthzCheck : String := "authz_check"

/-- Constant EventTypeAuthzError of src/pkg/trace/types.go. -/
def EventTypeAuthzError : String := "authz_error"

/-- Constant OutcomeAllow of src/pkg/trace/types.go. -/
def OutcomeAllow : String := "ALLOW"

/-- Constant OutcomeDeny of src/pkg/trace/types.go. -/
def OutcomeDeny : String := "DENY"

/-- Struct Actor of src/pkg/trace/types.go (the fields the client and the
validator touch; the remaining optional enrichment fields are never set by
this code base and are omitted from the embedding). -/
structure Actor where
  principal : String
deriving DecidableEq, Repr

/-- Struct Target of src/pkg/trace/types.go. -/
structure Target where
  resource : String
deriving DecidableEq, Repr

/-- Struct Action of src/pkg/trace/types.go. -/
structure Action where
  permission : String
  method : String
deriving DecidableEq, Repr

/-- Struct Decision of src/pkg/trace/types.go. -/
structure Decision where
  outcome : String
  reason : String
  evaluatedBy : String
  latencyMS : Int
deriving DecidableEq, Repr

/-- Struct Environment of src/pkg/trace/types.go. -/
structure Environment where
  mode : String
  component : String
deriving DecidableEq, Repr

/-- Struct AuthzError of src/pkg/trace/types.go. -/
structure AuthzError where
  kind : String
  message : String
  retryable : Bool
deriving DecidableEq, Repr

/-- Struct AuthzEvent of src/pkg/trace/types.go: the union envelope. Go nil
pointers for the sub-structs are `none`. The JSON encoding of this struct by
encoding/json round-trips losslessly (exported string/bool/int64 fields,
omitempty only drops absent pointers), so one parsed JSON line is modelled
directly as one AuthzEvent value. -/
structure AuthzEvent where
  schemaVersion : String
  eventType : String
  timestamp : String
  actor : Option Actor
  target : Option Target
  action : Option Action
  decision : Option Decision
  environment : Option Environment
  error : Option AuthzError
deriving DecidableEq, Repr

/-- Struct Writer of src/pkg/trace/writer.go. The buffered writer and its
sink are modelled at the event level: `buffer` holds emitted but unflushed
JSON lines, `sink` the flushed ones. `writeFails` models an underlying sink
whose writes fail (a failing bufio flush); `sinkCloseFails` a sink whose
Close fails; `sinkIsStdout` records whether the sink is the process standard
output. A Go `*Writer` value is `Option Writer`, `none` being the nil
writer returned when tracing is disabled. -/
structure Writer where
  closed : Bool
  buffer : List AuthzEvent
  sink : List AuthzEvent
  sinkIsStdout : Bool
  sinkClosed : Bool
  writeFails : Bool
  sinkCloseFails : Bool
deriving DecidableEq, Repr

/-- Embeds the Emit method of src/pkg/trace/writer.go: nil receiver is a
no-op; a closed writer fails fast; otherwise the event is marshalled and
appended to the buffer as one JSON line (a failing underlying writer makes
the buffered write report an error). The first component is the returned
error, the second the updated writer. -/
def Writer.Emit : Option Writer → AuthzEvent → Option String × Option Writer
  | none, _ => (none, none)
  | some w, ev =>
    if w.closed then (some "writer is closed", some w)
    else if w.writeFails then (some "failed to write trace event", some w)
    else (none, some { w with buffer := w.buffer ++ [ev] })

/-- Embeds the Flush method of src/pkg/trace/writer.go: nil receiver and
closed writer return nil; otherwise the buffer is flushed to the sink. -/
def Writer.Flush : Option Writer → Option String × Option Writer
  | none => (none, none)
  | some w =>
    if w.closed then (none, some w)
    else if w.writeFails then (some "flush error", some w)
    else (none, some { w with buffer := [], sink := w.sink ++ w.buffer })

/-- Embeds the Close method of src/pkg/trace/writer.go: nil receiver and an
already-closed writer return nil immediately; otherwise the writer is marked
closed, the buffer flushed (a flush error is returned with the sink left
open), and the sink closed unless it is the process standard output. -/
def Writer.Close : Option Writer → Option String × Option Writer
  | none => (none, none)
  | some w =>
    if w.closed then (none, some w)
    else
      let w1 : Writer := { w with closed := true }
      if w.writeFails then (some "flush error", some w1)
      else
        let w2 : Writer := { w1 with buffer := [], sink := w1.sink ++ w1.buffer }
        if w.sinkIsStdout then (none, some w2)
        else if w.sinkCloseFails then
          (some "close error", some { w2 with sinkClosed := true })
        else (none, some { w2 with sinkClosed := true })

/-- Struct Validator of src/config.go (trace validator part): the set of
accepted schema versions, a list standing for the Go map keys. -/
structure Validator where
  supportedSchemaVersions : List String
deriving DecidableEq, Repr

/-- Embeds NewValidator of src/config.go: only SchemaV1_0 is accepted. -/
def NewValidator : Validator :=
  { supportedSchemaVersions := [SchemaV1_0] }

/-- The authz_check guard on the actor: the Go condition
ev.Actor == nil || strings.TrimSpace(ev.Actor.Principal) == "". -/
def missingPrincipal : Option Actor → Bool
  | none => true
  | some a => trimSpaceS a.principal == ""

/-- The authz_check guard on the target: nil target or blank resource. -/
def missingResource : Option Target → Bool
  | none => true
  | some t => trimSpaceS t.resource == ""

/-- The authz_check guard on the action: nil action or blank permission. -/
def missingPermission : Option Action → Bool
  | none => true
  | some a => trimSpaceS a.permission == ""

/-- The authz_check guard on the decision: nil decision or blank outcome. -/
def outcomeMissing : Option Decision → Bool
  | none => true
  | some d => trimSpaceS d.outcome == ""

/-- The outcome string of a decision, read after the nil check. -/
def outcomeStr : Option Decision → String
  | none => ""
  | some d => d.outcome

/-- The Go condition ev.Decision.Outcome != OutcomeAllow &&
ev.Decision.Outcome != OutcomeDeny. -/
def outcomeInvalid (o : Option Decision) : Bool :=
  !(outcomeStr o == OutcomeAllow) && !(outcomeStr o == OutcomeDeny)

/-- The authz_error guard on the error kind: blank after trimming. -/
def errKindEmpty : Option AuthzError → Bool
  | none => true
  | some er => trimSpaceS er.kind == ""

/-- The authz_error guard on the error message: blank after trimming. -/
def errMsgEmpty : Option AuthzError → Bool
  | none => true
  | some er => trimSpaceS er.message == ""

/-- Embeds the ValidateEvent method of src/config.go: field requirements per
event type, in source order; `none` is a nil error (event accepted), `some`
carries the message of the returned error. -/
def Validator.ValidateEvent (v : Validator) (ev : AuthzEvent) : Option String :=
  if ev.schemaVersion = "" then some "missing schema_version"
  else if ev.schemaVersion ∉ v.supportedSchemaVersions then
    some ("unsupported schema_version: " ++ ev.schemaVersion)
  else if ev.eventType = "" then some "missing event_type"
  else if ev.timestamp = "" then some "missing timestamp"
  else if ev.eventType = EventTypeAuthzCheck then
    if missingPrincipal ev.actor then some "missing actor.principal"
    else if missingResource ev.target then some "missing target.resource"
    else if missingPermission ev.action then some "missing action.permission"
    else if outcomeMissing ev.decision then some "missing decision.outcome"
    else if outcomeInvalid ev.decision then
      some ("invalid decision.outcome: " ++ outcomeStr ev.decision)
    else none
  else if ev.eventType = EventTypeAuthzError then
    if ev.error = none then some "missing error object"
    else if errKindEmpty ev.error then some "missing error.kind"
    else if errMsgEmpty ev.error then some "missing error.message"
    else none
  else some ("unknown event_type: " ++ ev.eventType)

/-- A trace file as read back by the validator: the sequence of non-blank
JSON lines (each one unmarshalled AuthzEvent) and whether the file was
gzip-compressed on disk. Gzip decompression in openMaybeGzip of
src/config.go restores the identical byte stream that was compressed, so the
parsed lines of a gzip file equal those of the plain file. -/
structure TraceFile where
  lines : List AuthzEvent
  gzipped : Bool
deriving DecidableEq, Repr

/-- Embeds openMaybeGzip of src/config.go at the line level: both the plain
and the gzip path yield the same decoded line sequence. -/
def readLines (f : TraceFile) : List AuthzEvent :=
  f.lines

/-- The scanning loop of ValidateJSONLFile: validate each line in turn,
reporting the 1-based line number and message of the first failure. -/
def validateLines (v : Validator) : Nat → List AuthzEvent → Option (Nat × String)
  | _, [] => none
  | n, ev :: rest =>
    match Validator.ValidateEvent v ev with
    | some msg => some (n, msg)
    | none => validateLines v (n + 1) rest

/-- Embeds the ValidateJSONLFile method of src/config.go: read the (possibly
gzip-compressed) file line by line and validate every event, returning the
first ValidationError (line number and cause) or nil. -/
def Validator.ValidateJSONLFile (v : Validator) (f : TraceFile) : Option (Nat × String) :=
  validateLines v 1 (readLines f)

/-- Outcome of the remote TestIamPermissions call: the granted-permission
list of the response, or the call error. -/
inductive RemoteResult where
  | ok (permissions : List String)
  | err (e : GoError)
deriving DecidableEq, Repr

/-- The remote IAM evaluator as an oracle: principal (carried in outbound
metadata), resource and requested permission list determine the outcome of
the single RPC that CheckPermission issues. -/
abbrev RemoteOracle := String → String → List String → RemoteResult

/-- Modelled from the spec: the gRPC client connection (grpc.ClientConn) is
an external dependency whose source is not part of this repository. Spec
section 5 fixes its close contract: the connection is "closed exactly once
via Close(), safe to call multiple times (idempotent — a second close must
not error)". Only the closed flag is modelled. -/
structure ClientConn where
  closed : Bool
deriving DecidableEq, Repr

/-- Modelled from the spec: closing the connection marks it closed and never
errors, also when it is already closed (see ClientConn). -/
def ClientConn.Close (c : ClientConn) : Option String × ClientConn :=
  (none, { c with closed := true })

/-- Struct Client of src/client.go. The iampb stub and the fixed 2-second
timeout live inside the remote-call oracle that CheckPermission receives;
the remaining state is the connection, the mode and the trace writer. -/
structure Client where
  conn : Option ClientConn
  mode : AuthMode
  traceWriter : Option Writer
deriving DecidableEq, Repr

/-- The authz_check event built by emitAuthzTrace of src/client.go, with the
nondeterministic inputs (wall-clock timestamp, measured latency) passed in. -/
def authzCheckEvent (mode : AuthMode) (principal resource permission : String)
    (allowed : Bool) (latencyMS : Int) (ts : String) : AuthzEvent :=
  { schemaVersion := SchemaV1_0
    eventType := EventTypeAuthzCheck
    timestamp := ts
    actor := some { principal := principal }
    target := some { resource := resource }
    action := some { permission := permission, method := "CheckPermission" }
    decision := some
      { outcome := if allowed then OutcomeAllow else OutcomeDeny
        reason := if allowed then "binding_match" else "no_matching_binding"
        evaluatedBy := "gcp-emulator-auth"
        latencyMS := latencyMS }
    environment := some { mode := mode, component := "gcp-emulator-auth" }
    error := none }

/-- The authz_error event built by emitErrorTrace of src/client.go: the kind
and retryable flag come from the error classifiers (default policy_error,
not retryable), the message is the Error() string of the call error. -/
def authzErrorEvent (mode : AuthMode) (e : GoError) (ts : String) : AuthzEvent :=
  let kind := if IsConnectivityError (some e) then "iam_unreachable"
    else if IsConfigError (some e) then "invalid_request"
    else "policy_error"
  let retryable := IsConnectivityError (some e)
  { schemaVersion := SchemaV1_0
    eventType := EventTypeAuthzError
    timestamp := ts
    actor := none
    target := none
    action := none
    decision := none
    environment := some { mode := mode, component := "gcp-emulator-auth" }
    error := some { kind := kind, message := e.message, retryable := retryable } }

/-- Embeds emitAuthzTrace of src/client.go: nil writer returns at once;
otherwise the event is emitted and the writer flushed, both return values
discarded. -/
def Client.emitAuthzTrace (c : Client) (principal resource permission : String)
    (allowed : Bool) (latencyMS : Int) (ts : String) : Client :=
  match c.traceWriter with
  | none => c
  | some w =>
    let event := authzCheckEvent c.mode principal resource permission allowed latencyMS ts
    let r1 := Writer.Emit (some w) event
    let r2 := Writer.Flush r1.2
    { c with traceWriter := r2.2 }

/-- Embeds emitErrorTrace of src/client.go: nil writer returns at once;
otherwise the error event is emitted and the writer flushed, both return
values discarded. -/
def Client.emitErrorTrace (c : Client) (e : GoError) (ts : String) : Client :=
  match c.traceWriter with
  | none => c
  | some w =>
    let event := authzErrorEvent c.mode e ts
    let r1 := Writer.Emit (some w) event
    let r2 := Writer.Flush r1.2
    { c with traceWriter := r2.2 }

/-- Embeds CheckPermission of src/client.go (the traced version, lines
130-179): issue one TestIamPermissions call for the single requested
permission; on error, emit an error trace and apply the mode policy
(connectivity and permissive fail open, otherwise fail closed with the
original error); on success, allow exactly when the returned list has
length one, emitting an authz trace. The measured latency and the event
timestamps are the latencyMS and ts parameters. Returns the (allowed,
error) pair together with the client carrying the updated trace writer. -/
def Client.CheckPermission (c : Client) (remote : RemoteOracle)
    (principal resource permission : String) (latencyMS : Int) (ts : String) :
    (Bool × Option GoError) × Client :=
  match remote principal resource [permission] with
  | RemoteResult.err e =>
    let c1 := Client.emitErrorTrace c e ts
    if IsConnectivityError (some e) then
      if c.mode = AuthModePermissive then ((true, none), c1)
      else ((false, some e), c1)
    else ((false, some e), c1)
  | RemoteResult.ok perms =>
    let allowed := perms.length == 1
    let c1 := Client.emitAuthzTrace c principal resource permission allowed latencyMS ts
    ((allowed, none), c1)

/-- Embeds the Close method of src/client.go: close the connection when one
is present, forwarding its result; a nil connection returns nil. -/
def Client.Close (c : Client) : Option String × Client :=
  match c.conn with
  | some conn =>
    let r := ClientConn.Close conn
    (r.1, { c with conn := some r.2 })
  | none => (none, c)

/-- Sample connectivity failure: the Error() string of a gRPC status error. -/
def connErr : GoError :=
  { code := Code.unavailable
    message := "rpc error: code = Unavailable desc = connection refused" }

/-- Sample configuration failure. -/
def cfgErr : GoError :=
  { code := Code.invalidArgument
    message := "rpc error: code = InvalidArgument desc = bad resource format" }

/-- Sample policy-negative failure. -/
def pdErr : GoError :=
  { code := Code.permissionDenied
    message := "rpc error: code = PermissionDenied desc = permission denied" }

/-- A freshly constructed trace writer over an open, working file sink. -/
def freshWriter : Writer :=
  { closed := false, buffer := [], sink := [], sinkIsStdout := false
    sinkClosed := false, writeFails := false, sinkCloseFails := false }

/-- An already-closed trace writer whose sink is standard output. -/
def stdoutClosedWriter : Writer :=
  { closed := true, buffer := [], sink := [], sinkIsStdout := true
    sinkClosed := false, writeFails := false, sinkCloseFails := false }

/-- Sample client in permissive mode without tracing. -/
def permissiveClient : Client :=
  { conn := some { closed := false }, mode := AuthModePermissive, traceWriter := none }

/-- Sample client in strict mode with a fresh trace writer. -/
def strictClient : Client :=
  { conn := some { closed := false }, mode := AuthModeStrict
    traceWriter := some freshWriter }

/-- Sample well-formed authorization check event. -/
def sampleCheckEvent : AuthzEvent :=
  authzCheckEvent AuthModeStrict "user:alice@example.com"
    "projects/test/secrets/foo" "secretmanager.secrets.get" true 5
    "2026-01-27T18:03:12.483Z"

/-- An authz_error event whose error kind is a non-empty string consisting
of white space only. -/
def wsKindEvent : AuthzEvent :=
  { schemaVersion := "1.0"
    eventType := "authz_error"
    timestamp := "2026-01-27T18:03:12.490Z"
    actor := none
    target := none
    action := none
    decision := none
    environment := none
    error := some { kind := " ", message := "connection refused", retryable := true } }

theorem charEq_of_toNat {a b : Char} (h : a.toNat = b.toNat) : a = b := by
  apply Char.ext
  exact UInt32.toNat.inj h

theorem toNat_lowerChar (c : Char) :
    (lowerChar c).toNat =
      if 65 ≤ c.toNat ∧ c.toNat ≤ 90 then c.toNat + 32
      else if c.toNat = 304 then 105
      else if c.toNat = 8490 then 107
      else c.toNat := by
  unfold lowerChar
  by_cases h1 : 65 ≤ c.toNat ∧ c.toNat ≤ 90
  · have hv : (c.toNat + 32).isValidChar := Or.inl (by omega)
    rw [if_pos h1, if_pos h1, Char.ofNat, dif_pos hv]
    simp [Char.ofNatAux, Char.toNat, UInt32.toNat]
  · rw [if_neg h1, if_neg h1]
    by_cases h2 : c.toNat = 304
    · rw [if_pos h2, if_pos h2]
      decide
    · rw [if_neg h2, if_neg h2]
      by_cases h3 : c.toNat = 8490
      · rw [if_pos h3, if_pos h3]
        decide
      · rw [if_neg h3, if_neg h3]

theorem lowerChar_lowerChar (c : Char) : lowerChar (lowerChar c) = lowerChar c := by
  apply charEq_of_toNat
  rw [toNat_lowerChar, toNat_lowerChar]
  split_ifs <;> omega

theorem isSpaceChar_lowerChar (c : Char) : isSpaceChar (lowerChar c) = isSpaceChar c := by
  simp only [isSpaceChar, toNat_lowerChar, decide_eq_decide]
  split_ifs <;> omega

theorem dropWhile_isSpaceChar_map (l : List Char) :
    List.dropWhile isSpaceChar (l.map lowerChar) =
      (List.dropWhile isSpaceChar l).map lowerChar := by
  induction l with
  | nil => rfl
  | cons a t ih =>
    simp only [List.map, List.dropWhile, isSpaceChar_lowerChar]
    cases h : isSpaceChar a with
    | true => simpa [h] using ih
    | false => simp [h]

theorem trimRightL_map (l : List Char) :
    trimRightL (l.map lowerChar) = (trimRightL l).map lowerChar := by
  induction l with
  | nil => rfl
  | cons a t ih =>
    simp only [List.map, trimRightL, ih]
    cases h : trimRightL t with
    | nil =>
      simp only [List.map, isSpaceChar_lowerChar]
      cases hs : isSpaceChar a <;> simp
    | cons b u => simp

theorem trimSpaceL_map (l : List Char) :
    trimSpaceL (l.map lowerChar) = (trimSpaceL l).map lowerChar := by
  unfold trimSpaceL
  rw [dropWhile_isSpaceChar_map, trimRightL_map]

theorem dropWhile_isSpaceChar_idem (l : List Char) :
    List.dropWhile isSpaceChar (List.dropWhile isSpaceChar l) =
      List.dropWhile isSpaceChar l := by
  induction l with
  | nil => rfl
  | cons a t ih =>
    simp only [List.dropWhile]
    cases h : isSpaceChar a with
    | true => simpa [h] using ih
    | false => simp [List.dropWhile, h]

theorem dropWhile_length_le (p : Char → Bool) (l : List Char) :
    (l.dropWhile p).length ≤ l.length := by
  induction l with
  | nil => simp
  | cons a t ih =>
    simp only [List.dropWhile]
    cases p a with
    | true => simp only [List.length_cons]; omega
    | false => simp

theorem dropWhile_of_trimRightL (l : List Char)
    (h : List.dropWhile isSpaceChar l = l) :
    List.dropWhile isSpaceChar (trimRightL l) = trimRightL l := by
  cases l with
  | nil => rfl
  | cons a t =>
    have ha : isSpaceChar a = false := by
      cases hs : isSpaceChar a with
      | false => rfl
      | true =>
        exfalso
        have hlen : (List.dropWhile isSpaceChar t).length ≤ t.length :=
          dropWhile_length_le isSpaceChar t
        rw [List.dropWhile, hs] at h
        have := congrArg List.length h
        simp at this
        omega
    simp only [trimRightL]
    cases ht : trimRightL t with
    | nil => simp [ha, List.dropWhile]
    | cons b u => simp [List.dropWhile, ha]

theorem trimRightL_trimRightL (l : List Char) :
    trimRightL (trimRightL l) = trimRightL l := by
  induction l with
  | nil => rfl
  | cons a t ih =>
    have h3 : trimRightL (a :: t) =
        match trimRightL t with
        | [] => if isSpaceChar a = true then [] else [a]
        | c :: v => a :: c :: v := rfl
    cases ht : trimRightL t with
    | nil =>
      cases hs : isSpaceChar a with
      | true =>
        have h1 : trimRightL (a :: t) = [] := by rw [h3, ht]; simp [hs]
        rw [h1]
        rfl
      | false =>
        have h1 : trimRightL (a :: t) = [a] := by rw [h3, ht]; simp [hs]
        rw [h1]
        have h4 : trimRightL [a] =
            match trimRightL ([] : List Char) with
            | [] => if isSpaceChar a = true then [] else [a]
            | c :: v => a :: c :: v := rfl
        rw [h4]
        simp [trimRightL, hs]
    | cons b u =>
      rw [ht] at ih
      have h1 : trimRightL (a :: t) = a :: b :: u := by rw [h3, ht]
      have h2 : trimRightL (a :: b :: u) = a :: b :: u := by
        have h5 : trimRightL (a :: b :: u) =
            match trimRightL (b :: u) with
            | [] => if isSpaceChar a = true then [] else [a]
            | c :: v => a :: c :: v := rfl
        rw [h5, ih]
      rw [h1, h2]

theorem trimSpaceL_trimSpaceL (l : List Char) :
    trimSpaceL (trimSpaceL l) = trimSpaceL l := by
  unfold trimSpaceL
  rw [dropWhile_of_trimRightL (l.dropWhile isSpaceChar) (dropWhile_isSpaceChar_idem l),
    trimRightL_trimRightL]

theorem toLowerL_toLowerL (l : List Char) : toLowerL (toLowerL l) = toLowerL l := by
  unfold toLowerL
  rw [List.map_map]
  apply List.map_congr_left
  intro c _
  exact lowerChar_lowerChar c

theorem normalizeL_normalizeL (l : List Char) :
    normalizeL (normalizeL l) = normalizeL l := by
  unfold normalizeL toLowerL
  rw [trimSpaceL_map, trimSpaceL_trimSpaceL, List.map_map]
  apply List.map_congr_left
  intro c _
  exact lowerChar_lowerChar c

theorem toList_mk (l : List Char) : (String.mk l).toList = l := rfl

/-- C1: when the remote TestIamPermissions call fails, CheckPermission
returns (true, nil) for a connectivity-classified error in permissive mode,
(false, original error) for a connectivity-classified error in strict or
off mode, and (false, original error) in every mode for a failure that does
not classify as connectivity. -/
theorem checkPermission_failure_modes (c : Client) (p r perm : String)
    (lat : Int) (ts : String) (e : GoError) :
    (IsConnectivityError (some e) = true → c.mode = AuthModePermissive →
      (Client.CheckPermission c (fun _ _ _ => RemoteResult.err e) p r perm lat ts).1 =
        (true, none)) ∧
    (IsConnectivityError (some e) = true →
      (c.mode = AuthModeStrict ∨ c.mode = AuthModeOff) →
      (Client.CheckPermission c (fun _ _ _ => RemoteResult.err e) p r perm lat ts).1 =
        (false, some e)) ∧
    (IsConnectivityError (some e) = false →
      (Client.CheckPermission c (fun _ _ _ => RemoteResult.err e) p r perm lat ts).1 =
        (false, some e)) := by
  refine ⟨fun h1 h2 => ?_, fun h1 h2 => ?_, fun h1 => ?_⟩
  · simp [Client.CheckPermission, h1, h2]
  · have hne : ¬ c.mode = AuthModePermissive := by
      rcases h2 with h | h <;> rw [h] <;> decide
    simp [Client.CheckPermission, h1, hne]
  · simp [Client.CheckPermission, h1]

/-- Witness for checkPermission_failure_modes at concrete clients and
errors: permissive + unreachable allows, strict + unreachable denies with
the error, configuration errors deny in permissive mode too. -/
theorem checkPermission_failure_modes_witness :
    (Client.CheckPermission permissiveClient (fun _ _ _ => RemoteResult.err connErr)
      "user:a" "res" "perm" 1 "t").1 = (true, none) ∧
    (Client.CheckPermission strictClient (fun _ _ _ => RemoteResult.err connErr)
      "user:a" "res" "perm" 1 "t").1 = (false, some connErr) ∧
    (Client.CheckPermission permissiveClient (fun _ _ _ => RemoteResult.err cfgErr)
      "user:a" "res" "perm" 1 "t").1 = (false, some cfgErr) :=
  ⟨(checkPermission_failure_modes permissiveClient "user:a" "res" "perm" 1 "t" connErr).1
      (by decide) (by decide),
   (checkPermission_failure_modes strictClient "user:a" "res" "perm" 1 "t" connErr).2.1
      (by decide) (Or.inl (by decide)),
   (checkPermission_failure_modes permissiveClient "user:a" "res" "perm" 1 "t" cfgErr).2.2
      (by decide)⟩

/-- C2 counterexample: the code computes allowed from the length of the
returned list only; a response granting a single permission different from
the requested one still yields (true, nil), although the returned set does
not contain the requested permission. -/
theorem checkPermission_content_blind :
    (Client.CheckPermission strictClient
      (fun _ _ _ => RemoteResult.ok ["other.permission"])
      "user:a" "res" "secretmanager.versions.access" 1 "t").1 = (true, none) ∧
    (["other.permission"] : List String) ≠ ["secretmanager.versions.access"] ∧
    "secretmanager.versions.access" ∉ (["other.permission"] : List String) := by
  decide

/-- C2 amended: on a successful remote call returning list P, CheckPermission
returns (allowed, nil) with allowed true exactly when P has length one (the
contents are not compared against the requested permission); in particular an
empty P yields (false, nil) in every mode. -/
theorem checkPermission_success (c : Client) (p r perm : String)
    (P : List String) (lat : Int) (ts : String) :
    (Client.CheckPermission c (fun _ _ _ => RemoteResult.ok P) p r perm lat ts).1 =
      ((P.length == 1 : Bool), none) ∧
    (P = [] →
      (Client.CheckPermission c (fun _ _ _ => RemoteResult.ok P) p r perm lat ts).1 =
        (false, none)) := by
  constructor
  · simp [Client.CheckPermission]
  · intro hP
    subst hP
    simp [Client.CheckPermission]

/-- Witness for checkPermission_success: an empty granted set denies without
error. -/
theorem checkPermission_success_witness :
    (Client.CheckPermission strictClient (fun _ _ _ => RemoteResult.ok [])
      "user:a" "res" "perm" 1 "t").1 = (false, none) :=
  (checkPermission_success strictClient "user:a" "res" "perm" [] 1 "t").2 rfl

/-- C3: the classifiers are exactly the fixed code sets, a nil error
satisfies neither, the two buckets are mutually exclusive, and
PermissionDenied, NotFound and Unauthenticated satisfy neither. -/
theorem errorClassifiers_spec (e : GoError) :
    IsConnectivityError none = false ∧
    IsConfigError none = false ∧
    (IsConnectivityError (some e) = true ↔
      (e.code = Code.unavailable ∨ e.code = Code.deadlineExceeded ∨
        e.code = Code.canceled)) ∧
    (IsConfigError (some e) = true ↔
      (e.code = Code.invalidArgument ∨ e.code = Code.internal ∨
        e.code = Code.unimplemented)) ∧
    (¬ (IsConnectivityError (some e) = true ∧ IsConfigError (some e) = true)) ∧
    ((e.code = Code.permissionDenied ∨ e.code = Code.notFound ∨
        e.code = Code.unauthenticated) →
      IsConnectivityError (some e) = false ∧ IsConfigError (some e) = false) := by
  obtain ⟨code, msg⟩ := e
  cases code <;> simp [IsConnectivityError, IsConfigError]

/-- Witness for errorClassifiers_spec: a PermissionDenied failure is neither
connectivity nor configuration. -/
theorem errorClassifiers_spec_witness :
    IsConnectivityError (some pdErr) = false ∧ IsConfigError (some pdErr) = false :=
  (errorClassifiers_spec pdErr).2.2.2.2.2 (Or.inl (by decide))

/-- C4: the decision of CheckPermission is independent of the trace writer
state: two clients with the same mode but arbitrary (absent, closed or
failing versus working) trace writers and arbitrary connections return the
same (allowed, error) pair on the same inputs and remote outcome; trace
emission failures never reach the caller. -/
theorem checkPermission_trace_independent (mode : AuthMode)
    (conn1 conn2 : Option ClientConn) (w1 w2 : Option Writer)
    (remote : RemoteOracle) (p r perm : String) (lat : Int) (ts : String) :
    (Client.CheckPermission { conn := conn1, mode := mode, traceWriter := w1 }
      remote p r perm lat ts).1 =
    (Client.CheckPermission { conn := conn2, mode := mode, traceWriter := w2 }
      remote p r perm lat ts).1 := by
  unfold Client.CheckPermission
  cases remote p r [perm] with
  | ok perms => rfl
  | err e =>
    by_cases h1 : IsConnectivityError (some e) = true
    · by_cases h2 : mode = AuthModePermissive <;> simp [h1, h2]
    · simp [h1]

/-- C5: every CheckPermission decision has one of exactly three shapes:
(true, nil), (false, nil), or (false, e) with e the remote-call error
returned verbatim; allowed is never true together with a non-nil error. -/
theorem checkPermission_result_shapes (c : Client) (remote : RemoteOracle)
    (p r perm : String) (lat : Int) (ts : String) :
    ((Client.CheckPermission c remote p r perm lat ts).1 = (true, none) ∨
     (Client.CheckPermission c remote p r perm lat ts).1 = (false, none) ∨
     (∃ e, remote p r [perm] = RemoteResult.err e ∧
       (Client.CheckPermission c remote p r perm lat ts).1 = (false, some e))) ∧
    ((Client.CheckPermission c remote p r perm lat ts).1.1 = true →
      (Client.CheckPermission c remote p r perm lat ts).1.2 = none) := by
  unfold Client.CheckPermission
  cases hr : remote p r [perm] with
  | ok perms =>
    constructor
    · cases h : (perms.length == 1 : Bool)
      · right; left; simp [h]
      · left; simp [h]
    · intro _
      simp
  | err e =>
    by_cases h1 : IsConnectivityError (some e) = true
    · by_cases h2 : c.mode = AuthModePermissive
      · constructor
        · left; simp [h1, h2]
        · intro _; simp [h1, h2]
      · constructor
        · right; right; exact ⟨e, rfl, by simp [h1, h2]⟩
        · intro habs
          simp [h1, h2] at habs
    · have h1f : IsConnectivityError (some e) = false := by
        cases hb : IsConnectivityError (some e)
        · rfl
        · exact absurd hb h1
      constructor
      · right; right; exact ⟨e, rfl, by simp [h1f]⟩
      · intro habs
        simp [h1f] at habs

/-- Witness for checkPermission_result_shapes: a permissive-mode allow has a
nil error. -/
theorem checkPermission_result_shapes_witness :
    (Client.CheckPermission permissiveClient (fun _ _ _ => RemoteResult.err connErr)
      "user:a" "res" "perm" 1 "t").1.2 = none :=
  (checkPermission_result_shapes permissiveClient
    (fun _ _ _ => RemoteResult.err connErr) "user:a" "res" "perm" 1 "t").2 (by decide)

/-- C9: parsing an auth mode is invariant under lower-casing and trimming
the input, permissive and strict map to themselves, every string whose
lower-cased trimmed form is neither spelling (the empty string and the
spelling off included) maps to off, and IsEnabled is false exactly for the
off mode. The spelling STRİCT with U+0130 exercises the non-ASCII case
mapping of strings.ToLower: its lower-cased form is strict. -/
theorem parseAuthMode_spec (s : String) :
    ParseAuthMode s = ParseAuthMode (String.mk (normalizeL s.toList)) ∧
    (ParseAuthMode s = AuthModePermissive ↔
      normalizeL s.toList = "permissive".toList) ∧
    (ParseAuthMode s = AuthModeStrict ↔ normalizeL s.toList = "strict".toList) ∧
    (normalizeL s.toList ≠ "permissive".toList →
      normalizeL s.toList ≠ "strict".toList → ParseAuthMode s = AuthModeOff) ∧
    ParseAuthMode "permissive" = AuthModePermissive ∧
    ParseAuthMode "strict" = AuthModeStrict ∧
    ParseAuthMode "STRİCT" = AuthModeStrict ∧
    ParseAuthMode "off" = AuthModeOff ∧
    ParseAuthMode "" = AuthModeOff ∧
    AuthMode.IsEnabled AuthModeOff = false ∧
    AuthMode.IsEnabled AuthModePermissive = true ∧
    AuthMode.IsEnabled AuthModeStrict = true := by
  refine ⟨?_, ?_, ?_, ?_, by decide, by decide, by decide, by decide,
    by decide, by decide, by decide, by decide⟩
  · unfold ParseAuthMode
    have h : (String.mk (normalizeL s.toList)).toList = normalizeL s.toList := rfl
    rw [h, normalizeL_normalizeL]
  · unfold ParseAuthMode
    split_ifs with hp hs
    · exact iff_of_true rfl hp
    · refine iff_of_false ?_ hp
      intro habs
      exact absurd habs (by decide)
    · refine iff_of_false ?_ hp
      intro habs
      exact absurd habs (by decide)
  · unfold ParseAuthMode
    split_ifs with hp hs
    · refine iff_of_false ?_ ?_
      · intro habs
        exact absurd habs (by decide)
      · intro habs
        rw [hp] at habs
        exact absurd habs (by decide)
    · exact iff_of_true rfl hs
    · refine iff_of_false ?_ hs
      intro habs
      exact absurd habs (by decide)
  · intro h1 h2
    unfold ParseAuthMode
    rw [if_neg h1, if_neg h2]

/-- Witness for parseAuthMode_spec: an upper-case, padded strict spelling
parses to strict, and an unknown spelling parses to off. -/
theorem parseAuthMode_spec_witness :
    ParseAuthMode "  STRICT " = AuthModeStrict ∧
    ParseAuthMode "bogus" = AuthModeOff :=
  ⟨(parseAuthMode_spec "  STRICT ").2.2.1.mpr (by decide),
   (parseAuthMode_spec "bogus").2.2.2.1 (by decide) (by decide)⟩

/-- C10: an error that is not a gRPC status error resolves to code Unknown,
classifies as neither connectivity nor configuration, and therefore makes
CheckPermission return (false, original error) in every mode, permissive
included. -/
theorem checkPermission_unknown_code (c : Client) (p r perm msg : String)
    (lat : Int) (ts : String) :
    IsConnectivityError (some { code := Code.unknown, message := msg }) = false ∧
    IsConfigError (some { code := Code.unknown, message := msg }) = false ∧
    (Client.CheckPermission c
      (fun _ _ _ => RemoteResult.err { code := Code.unknown, message := msg })
      p r perm lat ts).1 = (false, some { code := Code.unknown, message := msg }) := by
  refine ⟨rfl, rfl, ?_⟩
  simp [Client.CheckPermission, IsConnectivityError]

/-- C6: a second Writer.Close returns nil and leaves the writer unchanged; a
writer whose sink is standard output never closes that sink; Emit on a
closed writer returns an error without writing; and a second Client.Close
does not return an error. -/
theorem close_idempotent (w : Writer) (ev : AuthzEvent) (cl : Client) :
    Writer.Close (Writer.Close (some w)).2 = (none, (Writer.Close (some w)).2) ∧
    (w.sinkIsStdout = true →
      Option.map Writer.sinkClosed (Writer.Close (some w)).2 = some w.sinkClosed) ∧
    (w.closed = true →
      Writer.Emit (some w) ev = (some "writer is closed", some w)) ∧
    (Client.Close (Client.Close cl).2).1 = none := by
  refine ⟨?_, fun hstd => ?_, fun hcl => ?_, ?_⟩
  · by_cases h1 : w.closed <;>
      by_cases h2 : w.writeFails <;>
      by_cases h3 : w.sinkIsStdout <;>
      by_cases h4 : w.sinkCloseFails <;>
      simp [Writer.Close, h1, h2, h3, h4]
  · by_cases h1 : w.closed <;>
      by_cases h2 : w.writeFails <;>
      simp [Writer.Close, h1, h2, hstd]
  · simp [Writer.Emit, hcl]
  · cases hc : cl.conn with
    | none => simp [Client.Close, hc]
    | some conn => simp [Client.Close, hc, ClientConn.Close]

theorem missingPrincipal_eq_false (o : Option Actor) :
    missingPrincipal o = false ↔ ∃ a, o = some a ∧ trimSpaceS a.principal ≠ "" := by
  cases o <;> simp [missingPrincipal]

theorem missingResource_eq_false (o : Option Target) :
    missingResource o = false ↔ ∃ t, o = some t ∧ trimSpaceS t.resource ≠ "" := by
  cases o <;> simp [missingResource]

theorem missingPermission_eq_false (o : Option Action) :
    missingPermission o = false ↔ ∃ a, o = some a ∧ trimSpaceS a.permission ≠ "" := by
  cases o <;> simp [missingPermission]

theorem outcome_ok (o : Option Decision) :
    (outcomeMissing o = false ∧ outcomeInvalid o = false) ↔
      ∃ d, o = some d ∧ (d.outcome = "ALLOW" ∨ d.outcome = "DENY") := by
  have hA : trimSpaceS "ALLOW" = "ALLOW" := by decide
  have hD : trimSpaceS "DENY" = "DENY" := by decide
  cases o with
  | none => simp [outcomeMissing]
  | some d =>
    constructor
    · rintro ⟨-, hv⟩
      refine ⟨d, rfl, ?_⟩
      have hv2 : (d.outcome == "ALLOW") = true ∨ (d.outcome == "DENY") = true := by
        by_cases hA2 : (d.outcome == "ALLOW") = true
        · exact Or.inl hA2
        · by_cases hD2 : (d.outcome == "DENY") = true
          · exact Or.inr hD2
          · exfalso
            have hAf : (d.outcome == "ALLOW") = false := by
              cases hb : (d.outcome == "ALLOW")
              · rfl
              · exact absurd hb hA2
            have hDf : (d.outcome == "DENY") = false := by
              cases hb : (d.outcome == "DENY")
              · rfl
              · exact absurd hb hD2
            simp [outcomeInvalid, outcomeStr, OutcomeAllow, OutcomeDeny,
              hAf, hDf] at hv
      rcases hv2 with h | h
      · exact Or.inl (eq_of_beq h)
      · exact Or.inr (eq_of_beq h)
    · rintro ⟨d2, hd2, hor⟩
      rw [Option.some.injEq] at hd2
      subst hd2
      constructor
      · rcases hor with h | h <;> simp [outcomeMissing, h, hA, hD]
      · rcases hor with h | h <;>
          simp [outcomeInvalid, outcomeStr, h, OutcomeAllow, OutcomeDeny]

theorem errorFields_ok (o : Option AuthzError) :
    (o ≠ none ∧ errKindEmpty o = false ∧ errMsgEmpty o = false) ↔
      ∃ er, o = some er ∧ trimSpaceS er.kind ≠ "" ∧ trimSpaceS er.message ≠ "" := by
  cases o <;> simp [errKindEmpty, errMsgEmpty]

/-- C7 counterexample: an authz_error event whose error kind is the
non-empty string " " meets every acceptance condition of the claim read
literally (schema 1.0, non-empty timestamp, known event type, non-empty kind
and message), yet ValidateEvent rejects it, because the code compares the
fields after white-space trimming. -/
theorem validateEvent_ws_kind_rejected :
    wsKindEvent.schemaVersion = "1.0" ∧
    wsKindEvent.timestamp ≠ "" ∧
    wsKindEvent.eventType = "authz_error" ∧
    Option.map AuthzError.kind wsKindEvent.error = some " " ∧
    (" " : String) ≠ "" ∧
    Option.map AuthzError.message wsKindEvent.error = some "connection refused" ∧
    ("connection refused" : String) ≠ "" ∧
    Validator.ValidateEvent NewValidator wsKindEvent = some "missing error.kind" := by
  decide

/-- C7 amended: ValidateEvent accepts an event exactly when it carries schema
version 1.0, a non-empty timestamp, and either event type authz_check with
principal, resource and permission non-empty after white-space trimming and
an outcome that is exactly ALLOW or DENY, or event type authz_error with
kind and message non-empty after white-space trimming. -/
theorem validateEvent_spec (ev : AuthzEvent) :
    Validator.ValidateEvent NewValidator ev = none ↔
      (ev.schemaVersion = "1.0" ∧ ev.timestamp ≠ "" ∧
        ((ev.eventType = "authz_check" ∧
            (∃ a, ev.actor = some a ∧ trimSpaceS a.principal ≠ "") ∧
            (∃ t, ev.target = some t ∧ trimSpaceS t.resource ≠ "") ∧
            (∃ a, ev.action = some a ∧ trimSpaceS a.permission ≠ "") ∧
            (∃ d, ev.decision = some d ∧
              (d.outcome = "ALLOW" ∨ d.outcome = "DENY"))) ∨
         (ev.eventType = "authz_error" ∧
            (∃ er, ev.error = some er ∧ trimSpaceS er.kind ≠ "" ∧
              trimSpaceS er.message ≠ "")))) := by
  obtain ⟨sv, et, ts, actor, target, action, decision, env, err⟩ := ev
  unfold Validator.ValidateEvent NewValidator
  dsimp only
  simp only [SchemaV1_0, EventTypeAuthzCheck, EventTypeAuthzError]
  by_cases h1 : sv = ""
  · subst h1
    rw [if_pos rfl]
    simp
  rw [if_neg h1]
  by_cases h2 : sv = "1.0"
  case neg =>
    have hnm : sv ∉ (["1.0"] : List String) := by simp [h2]
    rw [if_pos hnm]
    refine iff_of_false (by simp) ?_
    rintro ⟨hsv, -⟩
    exact h2 hsv
  subst h2
  rw [if_neg (by simp : ¬ (("1.0" : String) ∉ (["1.0"] : List String)))]
  by_cases h3 : et = ""
  · rw [if_pos h3]
    refine iff_of_false (by simp) ?_
    rintro ⟨-, -, hcase⟩
    rcases hcase with ⟨het, -⟩ | ⟨het, -⟩ <;> rw [h3] at het <;>
      exact absurd het (by decide)
  rw [if_neg h3]
  by_cases h4 : ts = ""
  · rw [if_pos h4]
    refine iff_of_false (by simp) ?_
    rintro ⟨-, hts, -⟩
    exact hts h4
  rw [if_neg h4]
  by_cases h5 : et = "authz_check"
  · subst h5
    rw [if_pos rfl]
    by_cases g1 : missingPrincipal actor = true
    · rw [if_pos g1]
      refine iff_of_false (by simp) ?_
      rintro ⟨-, -, hcase⟩
      rcases hcase with ⟨-, hP, -, -, -⟩ | ⟨het, -⟩
      · rw [(missingPrincipal_eq_false actor).mpr hP] at g1
        exact absurd g1 (by decide)
      · exact absurd het (by decide)
    rw [if_neg g1]
    have g1f : missingPrincipal actor = false := by
      cases hb : missingPrincipal actor
      · rfl
      · exact absurd hb g1
    by_cases g2 : missingResource target = true
    · rw [if_pos g2]
      refine iff_of_false (by simp) ?_
      rintro ⟨-, -, hcase⟩
      rcases hcase with ⟨-, -, hR, -, -⟩ | ⟨het, -⟩
      · rw [(missingResource_eq_false target).mpr hR] at g2
        exact absurd g2 (by decide)
      · exact absurd het (by decide)
    rw [if_neg g2]
    have g2f : missingResource target = false := by
      cases hb : missingResource target
      · rfl
      · exact absurd hb g2
    by_cases g3 : missingPermission action = true
    · rw [if_pos g3]
      refine iff_of_false (by simp) ?_
      rintro ⟨-, -, hcase⟩
      rcases hcase with ⟨-, -, -, hPm, -⟩ | ⟨het, -⟩
      · rw [(missingPermission_eq_false action).mpr hPm] at g3
        exact absurd g3 (by decide)
      · exact absurd het (by decide)
    rw [if_neg g3]
    have g3f : missingPermission action = false := by
      cases hb : missingPermission action
      · rfl
      · exact absurd hb g3
    by_cases g4 : outcomeMissing decision = true
    · rw [if_pos g4]
      refine iff_of_false (by simp) ?_
      rintro ⟨-, -, hcase⟩
      rcases hcase with ⟨-, -, -, -, hO⟩ | ⟨het, -⟩
      · rw [((outcome_ok decision).mpr hO).1] at g4
        exact absurd g4 (by decide)
      · exact absurd het (by decide)
    rw [if_neg g4]
    have g4f : outcomeMissing decision = false := by
      cases hb : outcomeMissing decision
      · rfl
      · exact absurd hb g4
    by_cases g5 : outcomeInvalid decision = true
    · rw [if_pos g5]
      refine iff_of_false (by simp) ?_
      rintro ⟨-, -, hcase⟩
      rcases hcase with ⟨-, -, -, -, hO⟩ | ⟨het, -⟩
      · rw [((outcome_ok decision).mpr hO).2] at g5
        exact absurd g5 (by decide)
      · exact absurd het (by decide)
    rw [if_neg g5]
    have g5f : outcomeInvalid decision = false := by
      cases hb : outcomeInvalid decision
      · rfl
      · exact absurd hb g5
    refine iff_of_true rfl ?_
    exact ⟨rfl, h4,
      Or.inl ⟨rfl, (missingPrincipal_eq_false actor).mp g1f,
        (missingResource_eq_false target).mp g2f,
        (missingPermission_eq_false action).mp g3f,
        (outcome_ok decision).mp ⟨g4f, g5f⟩⟩⟩
  rw [if_neg h5]
  by_cases h6 : et = "authz_error"
  · subst h6
    rw [if_pos rfl]
    by_cases e1 : err = none
    · rw [if_pos e1]
      refine iff_of_false (by simp) ?_
      rintro ⟨-, -, hcase⟩
      rcases hcase with ⟨het, -⟩ | ⟨-, ⟨er, her, -⟩⟩
      · exact absurd het (by decide)
      · rw [e1] at her
        exact Option.noConfusion her
    rw [if_neg e1]
    by_cases e2 : errKindEmpty err = true
    · rw [if_pos e2]
      refine iff_of_false (by simp) ?_
      rintro ⟨-, -, hcase⟩
      rcases hcase with ⟨het, -⟩ | ⟨-, hE⟩
      · exact absurd het (by decide)
      · rw [((errorFields_ok err).mpr hE).2.1] at e2
        exact absurd e2 (by decide)
    rw [if_neg e2]
    by_cases e3 : errMsgEmpty err = true
    · rw [if_pos e3]
      refine iff_of_false (by simp) ?_
      rintro ⟨-, -, hcase⟩
      rcases hcase with ⟨het, -⟩ | ⟨-, hE⟩
      · exact absurd het (by decide)
      · rw [((errorFields_ok err).mpr hE).2.2] at e3
        exact absurd e3 (by decide)
    rw [if_neg e3]
    have e2f : errKindEmpty err = false := by
      cases hb : errKindEmpty err
      · rfl
      · exact absurd hb e2
    have e3f : errMsgEmpty err = false := by
      cases hb : errMsgEmpty err
      · rfl
      · exact absurd hb e3
    refine iff_of_true rfl ?_
    exact ⟨rfl, h4, Or.inr ⟨rfl, (errorFields_ok err).mp ⟨e1, e2f, e3f⟩⟩⟩
  rw [if_neg h6]
  refine iff_of_false (by simp) ?_
  rintro ⟨-, -, hcase⟩
  rcases hcase with ⟨het, -⟩ | ⟨het, -⟩
  · exact h5 het
  · exact h6 het

/-- Witness for validateEvent_spec: the sample check event validates. -/
theorem validateEvent_spec_witness :
    Validator.ValidateEvent NewValidator sampleCheckEvent = none :=
  (validateEvent_spec sampleCheckEvent).mpr
    ⟨by decide, by decide,
     Or.inl ⟨by decide,
       ⟨{ principal := "user:alice@example.com" }, by decide, by decide⟩,
       ⟨{ resource := "projects/test/secrets/foo" }, by decide, by decide⟩,
       ⟨{ permission := "secretmanager.secrets.get", method := "CheckPermission" },
         by decide, by decide⟩,
       ⟨{ outcome := "ALLOW", reason := "binding_match",
          evaluatedBy := "gcp-emulator-auth", latencyMS := 5 },
         by decide, Or.inl (by decide)⟩⟩⟩

theorem validate_authzCheckEvent (mode : AuthMode) (p r perm : String)
    (allowed : Bool) (lat : Int) (ts : String)
    (hp : trimSpaceS p ≠ "") (hr : trimSpaceS r ≠ "")
    (hperm : trimSpaceS perm ≠ "") (hts : ts ≠ "") :
    Validator.ValidateEvent NewValidator
      (authzCheckEvent mode p r perm allowed lat ts) = none := by
  have hA : trimSpaceS "ALLOW" = "ALLOW" := by decide
  have hD : trimSpaceS "DENY" = "DENY" := by decide
  cases allowed <;>
    simp [authzCheckEvent, Validator.ValidateEvent, NewValidator,
      missingPrincipal, missingResource, missingPermission, outcomeMissing,
      outcomeInvalid, outcomeStr, SchemaV1_0, EventTypeAuthzCheck,
      EventTypeAuthzError, OutcomeAllow, OutcomeDeny, hp, hr, hperm, hts,
      hA, hD]

theorem validate_authzErrorEvent (mode : AuthMode) (e : GoError) (ts : String)
    (hts : ts ≠ "") (hmsg : trimSpaceS e.message ≠ "") :
    Validator.ValidateEvent NewValidator (authzErrorEvent mode e ts) = none := by
  have h1 : trimSpaceS "iam_unreachable" = "iam_unreachable" := by decide
  have h2 : trimSpaceS "invalid_request" = "invalid_request" := by decide
  have h3 : trimSpaceS "policy_error" = "policy_error" := by decide
  by_cases hc : IsConnectivityError (some e) = true
  · simp [authzErrorEvent, Validator.ValidateEvent, NewValidator,
      errKindEmpty, errMsgEmpty, SchemaV1_0, EventTypeAuthzCheck,
      EventTypeAuthzError, hts, hmsg, hc, h1]
  · by_cases hcf : IsConfigError (some e) = true
    · simp [authzErrorEvent, Validator.ValidateEvent, NewValidator,
        errKindEmpty, errMsgEmpty, SchemaV1_0, EventTypeAuthzCheck,
        EventTypeAuthzError, hts, hmsg, hc, hcf, h2]
    · simp [authzErrorEvent, Validator.ValidateEvent, NewValidator,
        errKindEmpty, errMsgEmpty, SchemaV1_0, EventTypeAuthzCheck,
        EventTypeAuthzError, hts, hmsg, hc, hcf, h3]

/-- C8 counterexample: CheckPermission accepts an empty principal, and the
authz_check event its emission path then writes to the trace sink fails
validation when the file is read back, for the plain and the gzip path
alike; the claim does not hold for every emitted event. -/
theorem roundTrip_empty_principal_fails :
    Option.map Writer.sink
      ((Client.CheckPermission
        { conn := none, mode := AuthModeStrict, traceWriter := some freshWriter }
        (fun _ _ _ => RemoteResult.ok ["secretmanager.secrets.get"])
        "" "projects/test/secrets/foo" "secretmanager.secrets.get" 1
        "2026-01-27T18:03:12.483Z").2.traceWriter) =
      some [authzCheckEvent AuthModeStrict "" "projects/test/secrets/foo"
        "secretmanager.secrets.get" true 1 "2026-01-27T18:03:12.483Z"] ∧
    Validator.ValidateJSONLFile NewValidator
      { lines := [authzCheckEvent AuthModeStrict "" "projects/test/secrets/foo"
          "secretmanager.secrets.get" true 1 "2026-01-27T18:03:12.483Z"],
        gzipped := false } = some (1, "missing actor.principal") ∧
    Validator.ValidateJSONLFile NewValidator
      { lines := [authzCheckEvent AuthModeStrict "" "projects/test/secrets/foo"
          "secretmanager.secrets.get" true 1 "2026-01-27T18:03:12.483Z"],
        gzipped := true } = some (1, "missing actor.principal") := by
  decide

/-- C8 amended: an authz_check and an authz_error event produced by the
emission paths, emitted through an open working writer and flushed, reach
the sink verbatim, and the resulting file passes ValidateJSONLFile — plain
or gzip-compressed — provided principal, resource and permission are
non-empty after white-space trimming, the timestamp is non-empty, and the
error message is non-empty after trimming. -/
theorem roundTrip_valid (mode : AuthMode) (p r perm : String) (allowed : Bool)
    (lat : Int) (ts : String) (e : GoError) (w : Writer) (gz : Bool)
    (hp : trimSpaceS p ≠ "") (hres : trimSpaceS r ≠ "")
    (hperm : trimSpaceS perm ≠ "") (hts : ts ≠ "")
    (hmsg : trimSpaceS e.message ≠ "") (hop : w.closed = false)
    (hwf : w.writeFails = false) (hbuf : w.buffer = []) (hsink : w.sink = []) :
    (Writer.Flush (Writer.Emit (Writer.Emit (some w)
        (authzCheckEvent mode p r perm allowed lat ts)).2
        (authzErrorEvent mode e ts)).2).2 =
      some { w with
              buffer := [],
              sink := [authzCheckEvent mode p r perm allowed lat ts,
                authzErrorEvent mode e ts] } ∧
    Validator.ValidateJSONLFile NewValidator
      { lines := [authzCheckEvent mode p r perm allowed lat ts,
          authzErrorEvent mode e ts],
        gzipped := gz } = none := by
  constructor
  · simp [Writer.Emit, Writer.Flush, hop, hwf, hbuf, hsink]
  · simp only [Validator.ValidateJSONLFile, readLines, validateLines,
      validate_authzCheckEvent mode p r perm allowed lat ts hp hres hperm hts,
      validate_authzErrorEvent mode e ts hts hmsg]

/-- Witness for roundTrip_valid: concrete events through a fresh writer into
a gzip-compressed file validate. -/
theorem roundTrip_valid_witness :
    Validator.ValidateJSONLFile NewValidator
      { lines := [authzCheckEvent AuthModeStrict "user:a" "res" "perm" true 1 "t",
                  authzErrorEvent AuthModeStrict connErr "t"],
        gzipped := true } = none :=
  (roundTrip_valid AuthModeStrict "user:a" "res" "perm" true 1 "t" connErr
    freshWriter true (by decide) (by decide) (by decide) (by decide) (by decide)
    (by decide) (by decide) (by decide) (by decide)).2

/-- Witness for close_idempotent at an already-closed stdout writer, a
sample event and the sample strict client. -/
theorem close_idempotent_witness :
    Writer.Close (Writer.Close (some stdoutClosedWriter)).2 =
      (none, (Writer.Close (some stdoutClosedWriter)).2) ∧
    Option.map Writer.sinkClosed (Writer.Close (some stdoutClosedWriter)).2 =
      some stdoutClosedWriter.sinkClosed ∧
    Writer.Emit (some stdoutClosedWriter) sampleCheckEvent =
      (some "writer is closed", some stdoutClosedWriter) ∧
    (Client.Close (Client.Close strictClient).2).1 = none :=
  ⟨(close_idempotent stdoutClosedWriter sampleCheckEvent strictClient).1,
   (close_idempotent stdoutClosedWriter sampleCheckEvent strictClient).2.1 (by decide),
   (close_idempotent stdoutClosedWriter sampleCheckEvent strictClient).2.2.1 (by decide),
   (close_idempotent stdoutClosedWriter sampleCheckEvent strictClient).2.2.2⟩

end EmulatorAuth
